import Mathlib

set_option maxRecDepth 8000

/-!
# Verification of the Auctions-Hunter deal-discovery pipeline

Shallow embedding of the repository's core pipeline:

* `utils/price_checker.py` — condition modifiers, retail estimation from
  titles, `ProfitAnalysis` and `analyze_deal`;
* `hunt.py` — `_is_good_deal` threshold filter and the margin sort of
  `hunt_deals`;
* `scrapers/browser.py` — `_parse_ebay_listing` and the retention loop of
  `search_ebay`;
* `db/database.py` — the `seen_deals` upsert `mark_deal_seen`.

Python floats are modelled as exact rationals (`ℚ`), Python strings as
Lean `String`s (the repository only manipulates ASCII-relevant casing),
and the SQLite `seen_deals` table as an association list keyed by
`item_url`.  All functions are total and computable, so concrete runs can
be checked by `decide`.
-/

/-- `needle` occurs as a contiguous run inside `haystack`. -/
def listIsInfix (needle : List Char) : List Char → Bool
  | [] => needle.isEmpty
  | c :: tl => needle.isPrefixOf (c :: tl) || listIsInfix needle tl

/-- Python's substring test `sub in s`. -/
def strContains (s sub : String) : Bool :=
  listIsInfix sub.toList s.toList

/-- Python's `str.lower` (ASCII case folding, which covers every string the
repository feeds through it).  Defined over the character list so that it
reduces inside the kernel. -/
def pyLower (s : String) : String :=
  String.mk (s.toList.map Char.toLower)

/-! ## `utils/price_checker.py` -/

/-- `ProfitAnalysis` dataclass from `utils/price_checker.py` (static
fields only; the `@property` members are the `def`s below, mirroring that
the Python class recomputes them on every access and stores none of them). -/
structure ProfitAnalysis where
  auction_price : ℚ
  shipping_cost : ℚ
  estimated_retail : ℚ
  condition_modifier : ℚ
  platform_fee_percent : ℚ := 13
deriving DecidableEq, Repr

namespace ProfitAnalysis

/-- Property `total_cost`. -/
def total_cost (a : ProfitAnalysis) : ℚ :=
  a.auction_price + a.shipping_cost

/-- Property `expected_sell_price`. -/
def expected_sell_price (a : ProfitAnalysis) : ℚ :=
  a.estimated_retail * a.condition_modifier

/-- Property `platform_fees`. -/
def platform_fees (a : ProfitAnalysis) : ℚ :=
  a.expected_sell_price * (a.platform_fee_percent / 100)

/-- Property `profit`. -/
def profit (a : ProfitAnalysis) : ℚ :=
  a.expected_sell_price - a.total_cost - a.platform_fees

/-- Property `profit_margin_percent`. -/
def profit_margin_percent (a : ProfitAnalysis) : ℚ :=
  if a.expected_sell_price ≤ 0 then 0
  else (a.profit / a.expected_sell_price) * 100

/-- Property `is_good_deal`: `profit > 30 and profit_margin_percent > 25`. -/
def is_good_deal (a : ProfitAnalysis) : Bool :=
  decide (30 < a.profit) && decide (25 < a.profit_margin_percent)

/-- Property `is_great_deal`: `profit > 75 and profit_margin_percent > 40`. -/
def is_great_deal (a : ProfitAnalysis) : Bool :=
  decide (75 < a.profit) && decide (40 < a.profit_margin_percent)

end ProfitAnalysis

/-- `get_condition_modifier` from `utils/price_checker.py`; every occurrence
of `pyLower condition` below is the local `condition_lower` of the source. -/
def get_condition_modifier (condition : String) : ℚ :=
  if strContains (pyLower condition) "new" && !strContains (pyLower condition) "pre" then 1.0
  else if strContains (pyLower condition) "refurbished" ||
          strContains (pyLower condition) "renewed" then
    if strContains (pyLower condition) "excellent" then 0.85
    else if strContains (pyLower condition) "good" then 0.75
    else 0.80
  else if strContains (pyLower condition) "pre-owned" ||
          strContains (pyLower condition) "used" then
    if strContains (pyLower condition) "like new" then 0.85
    else if strContains (pyLower condition) "good" then 0.70
    else if strContains (pyLower condition) "acceptable" then 0.55
    else 0.65
  else if strContains (pyLower condition) "salvage" then 0.35
  else if strContains (pyLower condition) "parts" ||
          strContains (pyLower condition) "not working" then 0.25
  else 0.70

/-- `skip_keywords` of `estimate_retail_from_title`. -/
def skip_keywords : List String :=
  ["cable", "lock", "bag", "backpack", "charger", "adapter",
   "case", "sleeve", "stand", "mount", "holder", "strap",
   "cleaning", "kit", "cover", "skin", "protector", "lot of"]

/-- `laptop_keywords` of `estimate_retail_from_title`. -/
def laptop_keywords : List String :=
  ["laptop", "notebook", "macbook", "thinkpad", "latitude",
   "chromebook", "elitebook", "probook", "ideapad", "pavilion",
   "inspiron", "xps", "surface pro", "surface laptop"]

/-- `estimate_retail_from_title` from `utils/price_checker.py`. -/
def estimate_retail_from_title (title : String) : Option ℚ :=
  if skip_keywords.any (fun kw => strContains (pyLower title) kw) &&
     !(["macbook", "thinkpad", "iphone", "ipad", "galaxy"].any
         (fun m => strContains (pyLower title) m)) then
    none
  else if laptop_keywords.any (fun kw => strContains (pyLower title) kw) then
    if strContains (pyLower title) "macbook pro" then
      if strContains (pyLower title) "16" || strContains (pyLower title) "m3" || strContains (pyLower title) "m2" then some 2000
      else some 1200
    else if strContains (pyLower title) "macbook air" then some 900
    else if strContains (pyLower title) "thinkpad" then
      if strContains (pyLower title) "x1" then some 1200 else some 600
    else if strContains (pyLower title) "dell latitude" then some 500
    else if strContains (pyLower title) "chromebook" then some 200
    else if strContains (pyLower title) "gaming" || strContains (pyLower title) "predator" || strContains (pyLower title) "rog" then
      some 1000
    else some 400
  else if strContains (pyLower title) "iphone" then
    if strContains (pyLower title) "15 pro" then some 1000
    else if strContains (pyLower title) "15" then some 800
    else if strContains (pyLower title) "14 pro" then some 800
    else if strContains (pyLower title) "14" then some 600
    else if strContains (pyLower title) "13" then some 500
    else if strContains (pyLower title) "12" then some 400
    else some 350
  else if strContains (pyLower title) "galaxy" || strContains (pyLower title) "samsung" then
    if strContains (pyLower title) "s24" || strContains (pyLower title) "s23" then some 700
    else if strContains (pyLower title) "s22" || strContains (pyLower title) "s21" then some 500
    else some 300
  else if strContains (pyLower title) "ipad" then
    if strContains (pyLower title) "pro" then some 800
    else if strContains (pyLower title) "air" then some 500
    else some 350
  else if strContains (pyLower title) "playstation" || strContains (pyLower title) "ps5" then some 450
  else if strContains (pyLower title) "xbox" then
    if strContains (pyLower title) "series x" then some 450 else some 300
  else if strContains (pyLower title) "nintendo switch" then
    if strContains (pyLower title) "oled" then some 350 else some 250
  else none

/-- `analyze_deal` from `utils/price_checker.py`.  Python's `if not retail`
is true when `retail` is `None` and also when it is `0.0`, so both cases
map to `none` here. -/
def analyze_deal (title : String) (auction_price : ℚ) (shipping : ℚ := 0)
    (condition : String := "Unknown") : Option ProfitAnalysis :=
  match estimate_retail_from_title title with
  | none => none
  | some retail =>
    if retail = 0 then none
    else
      some { auction_price := auction_price
             shipping_cost := shipping
             estimated_retail := retail
             condition_modifier := get_condition_modifier condition }

example : estimate_retail_from_title "MacBook Pro 16 M3 Pro" = some 2000 := by decide
example : get_condition_modifier "Excellent - Refurbished" = 0.85 := by
  with_unfolding_all decide
example : get_condition_modifier "new pre" = 0.70 := by with_unfolding_all decide
example : get_condition_modifier "Renewed" = 1.0 := by with_unfolding_all decide

/-- The condition-modifier table of the spec, transcribed from the claim's
ordered keyword precedence, with its one divergence from the code amended:
the rule-1 exclusion keyword is the bare substring `"pre"` (as in the code's
`'pre' not in condition_lower`), not the spec's `"pre-owned"`. -/
def conditionModifierSpec (condition : String) : ℚ :=
  if strContains (pyLower condition) "new" && !strContains (pyLower condition) "pre" then 1.0
  else if strContains (pyLower condition) "refurbished" ||
          strContains (pyLower condition) "renewed" then
    if strContains (pyLower condition) "excellent" then 0.85
    else if strContains (pyLower condition) "good" then 0.75
    else 0.80
  else if strContains (pyLower condition) "used" ||
          strContains (pyLower condition) "pre-owned" then
    if strContains (pyLower condition) "like new" then 0.85
    else if strContains (pyLower condition) "good" then 0.70
    else if strContains (pyLower condition) "acceptable" then 0.55
    else 0.65
  else if strContains (pyLower condition) "salvage" then 0.35
  else if strContains (pyLower condition) "parts" ||
          strContains (pyLower condition) "not working" then 0.25
  else 0.70

/-- Every condition modifier the code can produce lies in `[1/4, 1]`. -/
theorem get_condition_modifier_bounds (c : String) :
    1/4 ≤ get_condition_modifier c ∧ get_condition_modifier c ≤ 1 := by
  unfold get_condition_modifier
  repeat' split
  all_goals constructor <;> norm_num

/-- C1 (counterexample): the claim as stated is false.  The string
`"new pre"` contains `"new"` and does not contain `"pre-owned"`, so the
claim's first precedence rule demands the value `1.0`; the code tests for
the bare substring `"pre"` and falls through to the default `0.70`. -/
theorem C1_counterexample :
    strContains (pyLower "new pre") "new" = true ∧
    strContains (pyLower "new pre") "pre-owned" = false ∧
    get_condition_modifier "new pre" = 0.70 ∧ (0.70 : ℚ) ≠ 1.0 := by
  refine ⟨by decide, by decide, by with_unfolding_all decide, by norm_num⟩

/-- C1 (amended): `get_condition_modifier` agrees everywhere with the
claim's ordered precedence table once rule 1's exclusion is read as the
code's bare substring `"pre"`, and its value always lies in `(0, 1]`. -/
theorem C1_condition_modifier :
    ∀ c : String, get_condition_modifier c = conditionModifierSpec c ∧
      0 < get_condition_modifier c ∧ get_condition_modifier c ≤ 1 := by
  intro c
  refine ⟨?_, lt_of_lt_of_le (by norm_num) (get_condition_modifier_bounds c).1,
    (get_condition_modifier_bounds c).2⟩
  unfold get_condition_modifier conditionModifierSpec
  rw [Bool.or_comm (strContains (pyLower c) "pre-owned")]

/-- C6: `profit_margin_percent` is recomputed from `profit` and
`expected_sell_price` on every access (the dataclass stores no margin
field): it equals `profit / expected_sell_price * 100` whenever
`expected_sell_price > 0` and `0` whenever `expected_sell_price ≤ 0`. -/
theorem C6_margin_invariant (a : ProfitAnalysis) :
    (0 < a.expected_sell_price →
      a.profit_margin_percent = a.profit / a.expected_sell_price * 100) ∧
    (a.expected_sell_price ≤ 0 → a.profit_margin_percent = 0) := by
  constructor
  · intro h
    unfold ProfitAnalysis.profit_margin_percent
    rw [if_neg (not_le.mpr h)]
  · intro h
    unfold ProfitAnalysis.profit_margin_percent
    rw [if_pos h]

/-- Witness for C6 at a concrete analysis with positive expected sell price. -/
theorem C6_margin_invariant_witness :
    0 < (⟨100, 0, 200, 1, 13⟩ : ProfitAnalysis).expected_sell_price ∧
    (⟨100, 0, 200, 1, 13⟩ : ProfitAnalysis).profit_margin_percent =
      (⟨100, 0, 200, 1, 13⟩ : ProfitAnalysis).profit /
        (⟨100, 0, 200, 1, 13⟩ : ProfitAnalysis).expected_sell_price * 100 := by
  have h : 0 < (⟨100, 0, 200, 1, 13⟩ : ProfitAnalysis).expected_sell_price := by
    with_unfolding_all decide
  exact ⟨h, (C6_margin_invariant ⟨100, 0, 200, 1, 13⟩).1 h⟩

/-- C7: the great-deal thresholds (profit > 75, margin > 40) strictly
dominate the good-deal thresholds (profit > 30, margin > 25), so every
great deal is a good deal. -/
theorem C7_great_implies_good (a : ProfitAnalysis)
    (h : a.is_great_deal = true) : a.is_good_deal = true := by
  unfold ProfitAnalysis.is_great_deal at h
  unfold ProfitAnalysis.is_good_deal
  rcases Bool.and_eq_true _ _ |>.mp h with ⟨h1, h2⟩
  rw [decide_eq_true_eq] at h1 h2
  rw [Bool.and_eq_true, decide_eq_true_eq, decide_eq_true_eq]
  exact ⟨lt_trans (by norm_num) h1, lt_trans (by norm_num) h2⟩

/-- Witness for C7 at a concrete great deal (cost 10, retail 1000, new). -/
theorem C7_great_implies_good_witness :
    (⟨10, 0, 1000, 1, 13⟩ : ProfitAnalysis).is_great_deal = true ∧
    (⟨10, 0, 1000, 1, 13⟩ : ProfitAnalysis).is_good_deal = true :=
  have h : (⟨10, 0, 1000, 1, 13⟩ : ProfitAnalysis).is_great_deal = true := by
    with_unfolding_all decide
  ⟨h, C7_great_implies_good ⟨10, 0, 1000, 1, 13⟩ h⟩

/-- The finite table of retail values `estimate_retail_from_title` can return. -/
def retailTable : List ℚ :=
  [2000, 1200, 1000, 900, 800, 700, 600, 500, 450, 400, 350, 300, 250, 200]

/-- Every successful retail estimate is one of the hard-coded table values,
hence at least 200. -/
theorem estimate_retail_mem (t : String) (r : ℚ)
    (h : estimate_retail_from_title t = some r) : r ∈ retailTable ∧ 200 ≤ r := by
  unfold estimate_retail_from_title at h
  repeat' split at h
  all_goals simp only [Option.some.injEq, reduceCtorEq] at h
  all_goals subst h
  all_goals exact ⟨by decide, by norm_num⟩

/-- A successful retail estimate is never the falsy float `0.0`. -/
theorem estimate_retail_ne_zero (t : String) :
    ∀ r, estimate_retail_from_title t = some r → r ≠ 0 := by
  intro r hr
  have := (estimate_retail_mem t r hr).2
  intro h0
  rw [h0] at this
  norm_num at this

/-- C4: for non-negative auction price and shipping, `analyze_deal` returns
`none` exactly when the retail estimate is `none`.  (The embedding is a
total function, so no exception can be raised for any such inputs; Python's
falsy test `if not retail` cannot fire on a non-`None` estimate because all
table values are ≥ 200.) -/
theorem C4_analyze_none_iff (title : String) (price shipping : ℚ)
    (condition : String) (_hp : 0 ≤ price) (_hs : 0 ≤ shipping) :
    analyze_deal title price shipping condition = none ↔
      estimate_retail_from_title title = none := by
  unfold analyze_deal
  cases hE : estimate_retail_from_title title with
  | none => simp
  | some r =>
    have hr : r ≠ 0 := estimate_retail_ne_zero title r hE
    simp [hr]

/-- Witness for C4 at the MacBook scenario inputs. -/
theorem C4_analyze_none_iff_witness :
    (0 : ℚ) ≤ 1200 ∧ (0 : ℚ) ≤ 0 ∧
    (analyze_deal "MacBook Pro 16 M3 Pro" 1200 0 "Excellent - Refurbished" = none ↔
      estimate_retail_from_title "MacBook Pro 16 M3 Pro" = none) :=
  ⟨by norm_num, le_refl 0,
    C4_analyze_none_iff "MacBook Pro 16 M3 Pro" 1200 0 "Excellent - Refurbished"
      (by norm_num) (le_refl 0)⟩

/-- C10: retail estimates come from the fixed table with minimum 200, so
every analysis `analyze_deal` constructs has `estimated_retail ≥ 200` and
`condition_modifier ≥ 0.25`; its expected sell price is therefore strictly
positive and the `expected_sell_price ≤ 0` guard branch of
`profit_margin_percent` can never be taken on pipeline-produced analyses. -/
theorem C10_pipeline_margin_guard_unreachable (title : String)
    (price shipping : ℚ) (condition : String) :
    (∀ r, estimate_retail_from_title title = some r →
      r ∈ retailTable ∧ 200 ≤ r) ∧
    (∀ a, analyze_deal title price shipping condition = some a →
      200 ≤ a.estimated_retail ∧ (0.25 : ℚ) ≤ a.condition_modifier ∧
      0 < a.expected_sell_price ∧
      a.profit_margin_percent = a.profit / a.expected_sell_price * 100) := by
  constructor
  · exact fun r hr => estimate_retail_mem title r hr
  · intro a ha
    unfold analyze_deal at ha
    cases hE : estimate_retail_from_title title with
    | none => rw [hE] at ha; exact absurd ha (by simp)
    | some r =>
      rw [hE] at ha
      dsimp only at ha
      by_cases h0 : r = 0
      · rw [if_pos h0] at ha; exact absurd ha (by simp)
      · rw [if_neg h0] at ha
        simp only [Option.some.injEq] at ha
        subst ha
        have hret : (200 : ℚ) ≤ r := (estimate_retail_mem title r hE).2
        have hmod : (1/4 : ℚ) ≤ get_condition_modifier condition :=
          (get_condition_modifier_bounds condition).1
        have hesp : 0 < r * get_condition_modifier condition :=
          mul_pos (lt_of_lt_of_le (by norm_num) hret)
            (lt_of_lt_of_le (by norm_num) hmod)
        have hesp' : ¬ ((⟨price, shipping, r, get_condition_modifier condition, 13⟩ :
            ProfitAnalysis).expected_sell_price ≤ 0) := by
          simpa [ProfitAnalysis.expected_sell_price] using not_le.mpr hesp
        refine ⟨hret, by norm_num at hmod ⊢; exact hmod, hesp, ?_⟩
        unfold ProfitAnalysis.profit_margin_percent
        rw [if_neg hesp']

/-- Witness for C10 at the title "chromebook" (estimate 200, condition "New"). -/
theorem C10_pipeline_margin_guard_unreachable_witness :
    ((200 : ℚ) ∈ retailTable ∧ (200 : ℚ) ≤ 200) ∧
    (200 ≤ (⟨0, 0, 200, 1, 13⟩ : ProfitAnalysis).estimated_retail ∧
      (0.25 : ℚ) ≤ (⟨0, 0, 200, 1, 13⟩ : ProfitAnalysis).condition_modifier ∧
      0 < (⟨0, 0, 200, 1, 13⟩ : ProfitAnalysis).expected_sell_price ∧
      (⟨0, 0, 200, 1, 13⟩ : ProfitAnalysis).profit_margin_percent =
        (⟨0, 0, 200, 1, 13⟩ : ProfitAnalysis).profit /
          (⟨0, 0, 200, 1, 13⟩ : ProfitAnalysis).expected_sell_price * 100) :=
  ⟨(C10_pipeline_margin_guard_unreachable "chromebook" 0 0 "New").1 200
     (by with_unfolding_all decide),
   (C10_pipeline_margin_guard_unreachable "chromebook" 0 0 "New").2
     ⟨0, 0, 200, 1, 13⟩ (by with_unfolding_all decide)⟩

/-- The analysis record the C8 scenario constructs. -/
def macScenario : ProfitAnalysis :=
  { auction_price := 1200, shipping_cost := 0, estimated_retail := 2000,
    condition_modifier := 0.85, platform_fee_percent := 13 }

/-- C8: the pipeline on the scenario (title "MacBook Pro 16 M3 Pro",
price 1200, shipping 0, condition "Excellent - Refurbished") yields
retail 2000, modifier 0.85, expected sell price 1700, fees 221,
profit 279, margin 279/17 ≈ 16.4 (exactly 16.4 after rounding to one
decimal), and neither deal flag. -/
theorem C8_macbook_scenario :
    analyze_deal "MacBook Pro 16 M3 Pro" 1200 0 "Excellent - Refurbished" =
      some macScenario ∧
    macScenario.estimated_retail = 2000 ∧
    macScenario.condition_modifier = 0.85 ∧
    macScenario.expected_sell_price = 1700 ∧
    macScenario.platform_fees = 221 ∧
    macScenario.profit = 279 ∧
    macScenario.profit_margin_percent = 279/17 ∧
    |macScenario.profit_margin_percent - 16.4| < 0.05 ∧
    macScenario.is_good_deal = false ∧
    macScenario.is_great_deal = false := by
  have hE : estimate_retail_from_title "MacBook Pro 16 M3 Pro" = some 2000 := by
    decide
  have hC : get_condition_modifier "Excellent - Refurbished" = 0.85 := by
    with_unfolding_all decide
  have hA : analyze_deal "MacBook Pro 16 M3 Pro" 1200 0 "Excellent - Refurbished" =
      some macScenario := by
    unfold analyze_deal
    rw [hE]
    dsimp only
    rw [if_neg (by norm_num : (2000 : ℚ) ≠ 0)]
    unfold macScenario
    rw [hC]
  have hm : macScenario.profit_margin_percent = 279/17 := by
    with_unfolding_all decide
  refine ⟨hA, rfl, rfl, by with_unfolding_all decide,
    by with_unfolding_all decide, by with_unfolding_all decide, hm, ?_,
    by with_unfolding_all decide, by with_unfolding_all decide⟩
  rw [hm, abs_sub_lt_iff]
  constructor <;> norm_num

/-! ## `hunt.py` -/

/-- `AuctionItem` dataclass from `scrapers/browser.py`. -/
structure AuctionItem where
  title : String
  price : ℚ
  bids : ℕ
  time_left : String
  shipping : ℚ
  condition : String
  url : String
  image_url : Option String := none
  source : String := "ebay"
deriving DecidableEq, Repr

/-- `DealResult` dataclass from `hunt.py`. -/
structure DealResult where
  item : AuctionItem
  analysis : ProfitAnalysis
  source : String
deriving DecidableEq, Repr

/-- `_is_good_deal` from `hunt.py`: all three caller-supplied bounds,
inclusively. -/
def _is_good_deal (analysis : ProfitAnalysis)
    (min_profit min_margin max_margin : ℚ) : Bool :=
  decide (min_profit ≤ analysis.profit) &&
  decide (min_margin ≤ analysis.profit_margin_percent) &&
  decide (analysis.profit_margin_percent ≤ max_margin)

/-- The comparison under which
`deals.sort(key=lambda x: x.analysis.profit_margin_percent, reverse=True)`
orders its output: `a` may precede `b` iff `b`'s margin is at most `a`'s. -/
def dealLE (a b : DealResult) : Prop :=
  b.analysis.profit_margin_percent ≤ a.analysis.profit_margin_percent

instance : DecidableRel dealLE := fun _ _ =>
  inferInstanceAs (Decidable (_ ≤ _))

instance : IsTotal DealResult dealLE :=
  ⟨fun a b => le_total b.analysis.profit_margin_percent
    a.analysis.profit_margin_percent⟩

instance : IsTrans DealResult dealLE :=
  ⟨fun _ _ _ hab hbc => le_trans hbc hab⟩

/-- The deal collection and ranking of `hunt_deals`: the loop appends a
`DealResult` for every analysed item passing `_is_good_deal` (insertion
order), then `deals.sort(key=..., reverse=True)` sorts by margin
descending.  Python's sort is stable, and a stable descending sort is
exactly insertion sort under `dealLE`. -/
def hunt_rank (deals : List DealResult)
    (min_profit min_margin max_margin : ℚ) : List DealResult :=
  List.insertionSort dealLE
    (deals.filter (fun d => _is_good_deal d.analysis min_profit min_margin max_margin))

/-- Inserting a deal does not disturb the relative order of deals of any
single margin value: the passed-over prefix consists of strictly larger
margins only. -/
theorem filter_orderedInsert_margin (x : DealResult) (m : ℚ) :
    ∀ l : List DealResult,
      (List.orderedInsert dealLE x l).filter
          (fun d => decide (d.analysis.profit_margin_percent = m)) =
        if x.analysis.profit_margin_percent = m then
          x :: l.filter (fun d => decide (d.analysis.profit_margin_percent = m))
        else l.filter (fun d => decide (d.analysis.profit_margin_percent = m)) := by
  intro l
  induction l with
  | nil => by_cases hx : x.analysis.profit_margin_percent = m <;>
      simp [List.orderedInsert, hx]
  | cons y ys ih =>
    by_cases hle : dealLE x y
    · by_cases hx : x.analysis.profit_margin_percent = m <;>
        simp [List.orderedInsert, if_pos hle, hx]
    · have hlt : x.analysis.profit_margin_percent <
          y.analysis.profit_margin_percent := lt_of_not_le hle
      by_cases hx : x.analysis.profit_margin_percent = m
      · have hy : ¬ y.analysis.profit_margin_percent = m := by
          intro hy
          rw [hx, hy] at hlt
          exact lt_irrefl m hlt
        simp [List.orderedInsert, if_neg hle, hx, hy, ih]
      · by_cases hy : y.analysis.profit_margin_percent = m <;>
          simp [List.orderedInsert, if_neg hle, hx, hy, ih]

/-- The margin sort is stable: filtering to any one margin value commutes
with sorting. -/
theorem filter_insertionSort_margin (m : ℚ) :
    ∀ l : List DealResult,
      (List.insertionSort dealLE l).filter
          (fun d => decide (d.analysis.profit_margin_percent = m)) =
        l.filter (fun d => decide (d.analysis.profit_margin_percent = m)) := by
  intro l
  induction l with
  | nil => rfl
  | cons a l ih =>
    rw [List.insertionSort, filter_orderedInsert_margin a m]
    by_cases ha : a.analysis.profit_margin_percent = m <;>
      simp [ha, ih]

/-- C2 (amended): the ranker retains exactly the deals passing all three
bounds (a permutation of the filtered input, with membership preserved),
sorts descending by `marginPercent`, breaks margin ties by insertion
order alone (stability: margin-classes are preserved verbatim) — profit
is not consulted — and maps an empty input to an empty output.  It is a
pure total function: no I/O, no exceptions. -/
theorem C2_hunt_rank_spec (deals : List DealResult) (minP minM maxM : ℚ) :
    List.Perm (hunt_rank deals minP minM maxM)
      (deals.filter (fun d => _is_good_deal d.analysis minP minM maxM)) ∧
    (∀ d, d ∈ hunt_rank deals minP minM maxM ↔
      d ∈ deals ∧ _is_good_deal d.analysis minP minM maxM = true) ∧
    List.Pairwise dealLE (hunt_rank deals minP minM maxM) ∧
    (∀ m : ℚ, (hunt_rank deals minP minM maxM).filter
        (fun d => decide (d.analysis.profit_margin_percent = m)) =
      (deals.filter (fun d => _is_good_deal d.analysis minP minM maxM)).filter
        (fun d => decide (d.analysis.profit_margin_percent = m))) ∧
    hunt_rank [] minP minM maxM = [] := by
  refine ⟨List.perm_insertionSort dealLE _, ?_, ?_, ?_, rfl⟩
  · intro d
    unfold hunt_rank
    rw [List.mem_insertionSort, List.mem_filter]
  · exact List.sorted_insertionSort dealLE _
  · intro m
    exact filter_insertionSort_margin m _

/-- C2 (counterexample): two deals with equal margin 50% but different
profits (50 vs 100), inserted low-profit-first, pass the default bounds
and are returned in insertion order — the claim's profit tie-break would
have put the higher-profit deal first. -/
theorem C2_counterexample :
    hunt_rank
        [⟨⟨"A", 37, 0, "1h", 0, "Used", "https://www.ebay.com/itm/a", none, "ebay"⟩,
          ⟨37, 0, 100, 1, 13⟩, "ebay"⟩,
         ⟨⟨"B", 74, 0, "1h", 0, "Used", "https://www.ebay.com/itm/b", none, "ebay"⟩,
          ⟨74, 0, 200, 1, 13⟩, "ebay"⟩] 30 25 100 =
      [⟨⟨"A", 37, 0, "1h", 0, "Used", "https://www.ebay.com/itm/a", none, "ebay"⟩,
        ⟨37, 0, 100, 1, 13⟩, "ebay"⟩,
       ⟨⟨"B", 74, 0, "1h", 0, "Used", "https://www.ebay.com/itm/b", none, "ebay"⟩,
        ⟨74, 0, 200, 1, 13⟩, "ebay"⟩] ∧
    (⟨37, 0, 100, 1, 13⟩ : ProfitAnalysis).profit_margin_percent =
      (⟨74, 0, 200, 1, 13⟩ : ProfitAnalysis).profit_margin_percent ∧
    (⟨37, 0, 100, 1, 13⟩ : ProfitAnalysis).profit <
      (⟨74, 0, 200, 1, 13⟩ : ProfitAnalysis).profit := by
  refine ⟨?_, by with_unfolding_all decide, by with_unfolding_all decide⟩
  with_unfolding_all decide

/-! ## `scrapers/browser.py` -/

/-- One candidate listing card as `search_ebay` hands it to
`_parse_ebay_listing`: the `href` of the card's first `a[href*="/itm/"]`
anchor (`none` when the anchor is missing or `get_attribute` returns
`None`), the card's `inner_text`, and the `src` of its image, if any. -/
structure ListingCard where
  linkHref : Option String
  cardText : String
  imageSrc : Option String
deriving DecidableEq, Repr

/-- Value of a run of decimal digits. -/
def digitsToNat (ds : List Char) : ℕ :=
  ds.foldl (fun n c => 10 * n + (c.toNat - 48)) 0

/-- Python's `str.strip()`. -/
def pyStrip (s : String) : String :=
  String.mk (((s.toList.dropWhile Char.isWhitespace).reverse.dropWhile
    Char.isWhitespace).reverse)

/-- Python's `s[:n]`. -/
def pyTake (s : String) (n : ℕ) : String :=
  String.mk (s.toList.take n)

/-- Python's `str.split('\n')` on the character level. -/
def splitOnNl : List Char → List (List Char)
  | [] => [[]]
  | '\n' :: rest => [] :: splitOnNl rest
  | c :: rest =>
    match splitOnNl rest with
    | [] => [[c]]
    | l :: ls => (c :: l) :: ls

/-- `[l.strip() for l in card_text.split('\n') if l.strip()]`. -/
def cardLines (cardText : String) : List String :=
  ((splitOnNl cardText.toList).map (fun l => pyStrip (String.mk l))).filter
    (fun l => l ≠ "")

/-- Characters of the regex class `[\d,]`. -/
def isAmountChar (c : Char) : Bool :=
  c.isDigit || c == ','

/-- Python's `str.replace(',', '')`. -/
def stripCommas (cs : List Char) : List Char :=
  cs.filter (fun c => c ≠ ',')

/-- Python's `float` applied to the comma-stripped group of
`[\d,]+\.?\d*`: an optional integer part, an optional dot, an optional
fraction part; `float` raises `ValueError` (here `none`) when no digit is
left at all (e.g. on `""` or `"."`). -/
def pyFloat (cs : List Char) : Option ℚ :=
  let intPart := cs.takeWhile Char.isDigit
  match cs.drop intPart.length with
  | [] => if intPart = [] then none else some (mkRat (digitsToNat intPart) 1)
  | '.' :: frac =>
    if frac.all Char.isDigit then
      if intPart = [] ∧ frac = [] then none
      else some (mkRat (digitsToNat intPart * 10 ^ frac.length + digitsToNat frac)
        (10 ^ frac.length))
    else none
  | _ => none

/-- The greedy match of `[\d,]+\.?\d*` starting at the head of `cs` (the
leading `[\d,]` run, then one dot if present, then a digit run). -/
def amountGroup (cs : List Char) : List Char :=
  let run := cs.takeWhile isAmountChar
  match cs.drop run.length with
  | '.' :: rest => run ++ '.' :: rest.takeWhile Char.isDigit
  | _ => run

/-- `re.search(r'^\$?([\d,]+\.?\d*)\s*$', line)` from the price loop:
an optional leading dollar sign, the amount group, then nothing but
whitespace to the end of the line.  (If the greedy parse of the group
leaves a non-whitespace remainder, every backtracking alternative leaves
a remainder starting with the same non-whitespace character, so greedy
matching without backtracking is faithful here.) -/
def priceLineMatch (line : String) : Option (List Char) :=
  let cs := match line.toList with
    | '$' :: rest => rest
    | cs => cs
  if cs.takeWhile isAmountChar = [] then none
  else
    let g := amountGroup cs
    if (cs.drop g.length).all Char.isWhitespace then some g else none

/-- The price loop of `_parse_ebay_listing`: `price` starts at `0.0`,
every matching line overwrites it through `float` (whose `ValueError` the
inner `try` swallows), and the loop breaks at the first strictly positive
value. -/
def priceFromLines : List String → ℚ → ℚ
  | [], price => price
  | l :: ls, price =>
    match priceLineMatch l with
    | some g =>
      match pyFloat (stripCommas g) with
      | some v => if 0 < v then v else priceFromLines ls v
      | none => priceFromLines ls price
    | none => priceFromLines ls price

/-- Case-insensitive test that `cs` begins with `bid`. -/
def isBidPrefix (cs : List Char) : Bool :=
  match cs with
  | b :: i :: d :: _ => b.toLower == 'b' && i.toLower == 'i' && d.toLower == 'd'
  | _ => false

/-- `re.search(r'(\d+)\s*bids?', line, re.IGNORECASE)`: `re.search`
scans start positions left to right; at a digit the group is the maximal
digit run from there, followed by optional whitespace and `bid`
(case-insensitively; the `s?` constrains nothing). -/
def bidsInLine : List Char → Option ℕ
  | [] => none
  | c :: rest =>
    if c.isDigit then
      if isBidPrefix ((rest.dropWhile Char.isDigit).dropWhile Char.isWhitespace) then
        some (digitsToNat (c :: rest.takeWhile Char.isDigit))
      else bidsInLine rest
    else bidsInLine rest

/-- The bid loop: the first line with a match decides; otherwise 0. -/
def bidsFromLines (lines : List String) : ℕ :=
  match lines.find? (fun l => (bidsInLine l.toList).isSome) with
  | some l => (bidsInLine l.toList).getD 0
  | none => 0

/-- The time-left loop: first line whose lowering contains `left` and
that contains one of `"m "`, `"h "`, `"d "` verbatim; else `"unknown"`. -/
def timeLeftFromLines (lines : List String) : String :=
  match lines.find? (fun l => strContains (pyLower l) "left" &&
      (strContains l "m " || strContains l "h " || strContains l "d ")) with
  | some l => l
  | none => "unknown"

/-- `re.search(r'\$?([\d,]+\.?\d*)', line)` from the shipping branch:
leftmost match; a start position matches when it begins with a `[\d,]`
character, or with `$` immediately followed by one. -/
def searchAmount : List Char → Option (List Char)
  | [] => none
  | c :: rest =>
    if isAmountChar c then some (amountGroup (c :: rest))
    else if c == '$' then
      match rest with
      | d :: _ => if isAmountChar d then some (amountGroup rest) else searchAmount rest
      | [] => none
    else searchAmount rest

/-- The shipping loop: the first line mentioning delivery/shipping
decides and breaks; `free` gives 0; otherwise the first dollar amount
goes through `float` with *no* inner `try`, so a `ValueError` there
escapes to the outer handler and kills the whole item parse (`none`).
With no matching line the initial `0.0` stands. -/
def shippingFromLines (lines : List String) : Option ℚ :=
  match lines.find? (fun l => strContains (pyLower l) "delivery" ||
      strContains (pyLower l) "shipping") with
  | none => some 0
  | some l =>
    if strContains (pyLower l) "free" then some 0
    else
      match searchAmount l.toList with
      | none => some 0
      | some g => pyFloat (stripCommas g)

/-- The condition loop: first line whose lowering mentions
new/used/refurbished/pre-owned; else `"Unknown"`. -/
def conditionFromLines (lines : List String) : String :=
  match lines.find? (fun l => strContains (pyLower l) "new" ||
      strContains (pyLower l) "used" || strContains (pyLower l) "refurbished" ||
      strContains (pyLower l) "pre-owned") with
  | some l => l
  | none => "Unknown"

/-- `_parse_ebay_listing` from `scrapers/browser.py`.  The outer
`try/except: return None` shows up as the `none` fall-throughs, including
the unguarded `float` of the shipping branch. -/
def _parse_ebay_listing (card : ListingCard) : Option AuctionItem :=
  if card.linkHref.getD "" = "" ∨
     strContains (card.linkHref.getD "") "/itm/" = false then none
  else if card.cardText = "" ∨ strContains card.cardText "Shop on eBay" = true then
    none
  else
    match (cardLines card.cardText).find?
        (fun l => decide (10 < l.length) && !strContains l "Opens in") with
    | none => none
    | some title =>
      match shippingFromLines (cardLines card.cardText) with
      | none => none
      | some shipping =>
        some { title := pyTake title 200
               price := priceFromLines (cardLines card.cardText) 0
               bids := bidsFromLines (cardLines card.cardText)
               time_left := timeLeftFromLines (cardLines card.cardText)
               shipping := shipping
               condition := conditionFromLines (cardLines card.cardText)
               url := card.linkHref.getD ""
               image_url := card.imageSrc
               source := "ebay" }

/-- The retention loop of `search_ebay` over the parse results of the
candidate cards: a parsed item is appended to `items` only when
`item.price > 0`; parse failures and zero-price items are skipped (the
latter merely logged for the first three attempts). -/
def search_ebay_collect : List (Option AuctionItem) → List AuctionItem
  | [] => []
  | none :: rest => search_ebay_collect rest
  | some it :: rest =>
    if 0 < it.price then it :: search_ebay_collect rest
    else search_ebay_collect rest

example : pyFloat (stripCommas "1,234.56".toList) = some (mkRat 123456 100) := by
  decide

/-- A container that parses successfully but yields the sentinel price 0:
a valid item link and a title line, yet no line matches the currency
pattern. -/
def zeroPriceCard : ListingCard :=
  { linkHref := some "https://www.ebay.com/itm/99"
    cardText := "Vintage Laptop Computer Device"
    imageSrc := none }

/-- The item `_parse_ebay_listing` produces for `zeroPriceCard`. -/
def zeroPriceItem : AuctionItem :=
  { title := "Vintage Laptop Computer Device", price := 0, bids := 0,
    time_left := "unknown", shipping := 0, condition := "Unknown",
    url := "https://www.ebay.com/itm/99", image_url := none, source := "ebay" }

/-- C3 (counterexample): the claim as stated is false.  `zeroPriceCard`
is successfully parsed into an item with sentinel price 0, yet the
`search_ebay` retention loop drops it from the batch instead of keeping
it. -/
theorem C3_counterexample :
    _parse_ebay_listing zeroPriceCard = some zeroPriceItem ∧
    zeroPriceItem.price = 0 ∧
    search_ebay_collect [_parse_ebay_listing zeroPriceCard] = [] := by
  exact ⟨by decide, rfl, by decide⟩

/-- C3 (amended): the per-item parser does return zero-price items (so
the sentinel exists at that level), but the batch loop of `search_ebay`
retains exactly the parsed items with price strictly greater than 0 —
zero-price listings are dropped from the extractor's output, not
retained. -/
theorem C3_zero_price_dropped (parsed : List (Option AuctionItem)) :
    search_ebay_collect parsed =
      (parsed.filterMap id).filter (fun it => decide (0 < it.price)) := by
  induction parsed with
  | nil => rfl
  | cons o rest ih =>
    cases o with
    | none => simpa [search_ebay_collect] using ih
    | some it =>
      by_cases h : 0 < it.price <;>
        simp [search_ebay_collect, h, ih]

/-- C9: whenever `_parse_ebay_listing` emits an item, the item's `url` is
non-empty (and contains `/itm/`): a candidate with no resolvable url is
rejected with `None` before any field is extracted, so every emitted
record is usable as a deduplication key. -/
theorem C9_parsed_item_has_url (card : ListingCard) (it : AuctionItem)
    (h : _parse_ebay_listing card = some it) :
    it.url ≠ "" ∧ strContains it.url "/itm/" = true := by
  unfold _parse_ebay_listing at h
  split at h
  · exact absurd h (by simp)
  · next hurl =>
    push_neg at hurl
    split at h
    · exact absurd h (by simp)
    · split at h
      · exact absurd h (by simp)
      · split at h
        · exact absurd h (by simp)
        · simp only [Option.some.injEq] at h
          subst h
          exact ⟨hurl.1, by simpa using hurl.2⟩

/-- Witness for C9 at the concrete `zeroPriceCard`. -/
theorem C9_parsed_item_has_url_witness :
    zeroPriceItem.url ≠ "" ∧ strContains zeroPriceItem.url "/itm/" = true :=
  C9_parsed_item_has_url zeroPriceCard zeroPriceItem (by decide)

/-! ## `db/database.py` -/

/-- One row of the `seen_deals` table.  `item_url` is kept as the
association-list key outside the row; SQLite timestamps are abstracted to
naturals.  The `id` column (an autoincrement surrogate) plays no role in
`mark_deal_seen` and is omitted. -/
structure SeenRow where
  source : String
  title : Option String
  price : Option ℚ
  profit : Option ℚ
  margin : Option ℚ
  first_seen : ℕ
  last_seen : ℕ
  notified : Bool
deriving DecidableEq, Repr

/-- One invocation of `mark_deal_seen`, with the Python defaults
(`title=None`, numeric fields `None`, `notified=False`) and the value of
`CURRENT_TIMESTAMP` at the call (`now`). -/
structure MarkCall where
  source : String
  item_url : String
  title : Option String := none
  price : Option ℚ := none
  profit : Option ℚ := none
  margin : Option ℚ := none
  notified : Bool := false
  now : ℕ
deriving DecidableEq, Repr

/-- The row built by the INSERT arm (`first_seen` and `last_seen` both
default to `CURRENT_TIMESTAMP`). -/
def insertRow (c : MarkCall) : SeenRow :=
  { source := c.source, title := c.title, price := c.price,
    profit := c.profit, margin := c.margin, first_seen := c.now,
    last_seen := c.now, notified := c.notified }

/-- The `ON CONFLICT(item_url) DO UPDATE SET` arm: `last_seen` refreshes,
the numeric fields take `COALESCE(excluded.x, x)`, `notified` takes
`CASE WHEN excluded.notified = 1 THEN 1 ELSE notified END`; `source`,
`title` and `first_seen` are not in the SET list and stay. -/
def updateRow (r : SeenRow) (c : MarkCall) : SeenRow :=
  { r with last_seen := c.now,
           price := c.price.orElse (fun _ => r.price),
           profit := c.profit.orElse (fun _ => r.profit),
           margin := c.margin.orElse (fun _ => r.margin),
           notified := if c.notified then true else r.notified }

/-- The `seen_deals` table in insertion order; the UNIQUE constraint on
`item_url` is what the upsert's conflict target keys on. -/
abbrev SeenTable := List (String × SeenRow)

/-- `mark_deal_seen` from `db/database.py`:
`INSERT ... ON CONFLICT(item_url) DO UPDATE SET ...`. -/
def mark_deal_seen (db : SeenTable) (c : MarkCall) : SeenTable :=
  if db.any (fun p => p.1 == c.item_url) then
    db.map (fun p => if p.1 == c.item_url then (p.1, updateRow p.2 c) else p)
  else db ++ [(c.item_url, insertRow c)]

/-- `SELECT * FROM seen_deals WHERE item_url = u` (at most one row by the
UNIQUE constraint). -/
def findRow (db : SeenTable) (u : String) : Option SeenRow :=
  (db.find? (fun p => p.1 == u)).map (fun p => p.2)

/-- Number of rows stored under `u`. -/
def rowCount (db : SeenTable) (u : String) : ℕ :=
  db.countP (fun p => p.1 == u)

/-- The last non-`None` value in `v :: os`, if any: the net effect of a
chain of `COALESCE(excluded.x, x)` updates. -/
def lastGiven (v : Option ℚ) (os : List (Option ℚ)) : Option ℚ :=
  os.foldl (fun acc o => o.orElse (fun _ => acc)) v

/-- Updating a sequence of conflicting calls into an existing row. -/
def applyUpdates (r : SeenRow) (calls : List MarkCall) : SeenRow :=
  calls.foldl updateRow r

theorem rowCount_eq_zero_of_findRow_none (db : SeenTable) (u : String)
    (h : findRow db u = none) : rowCount db u = 0 := by
  unfold rowCount
  rw [List.countP_eq_zero]
  exact List.find?_eq_none.mp (Option.map_eq_none'.mp h)

theorem mark_deal_seen_insert (db : SeenTable) (c : MarkCall)
    (h : findRow db c.item_url = none) :
    mark_deal_seen db c = db ++ [(c.item_url, insertRow c)] := by
  have hnone := List.find?_eq_none.mp (Option.map_eq_none'.mp h)
  unfold mark_deal_seen
  rw [if_neg]
  intro hany
  obtain ⟨x, hm, hp⟩ := List.any_eq_true.mp hany
  exact hnone x hm hp

theorem findRow_append_insert (db : SeenTable) (u : String) (row : SeenRow)
    (h : findRow db u = none) :
    findRow (db ++ [(u, row)]) u = some row := by
  unfold findRow
  rw [List.find?_append, Option.map_eq_none'.mp h]
  simp

theorem findRow_map_update (c : MarkCall) :
    ∀ (db : SeenTable) (r : SeenRow), findRow db c.item_url = some r →
      findRow (db.map (fun p =>
          if p.1 == c.item_url then (p.1, updateRow p.2 c) else p))
        c.item_url = some (updateRow r c) := by
  intro db
  induction db with
  | nil => intro r h; simp [findRow] at h
  | cons q qs ih =>
    intro r h
    by_cases hq : (q.1 == c.item_url) = true
    · unfold findRow at h
      rw [List.find?_cons_of_pos qs hq] at h
      simp only [Option.map_some', Option.some.injEq] at h
      subst h
      unfold findRow
      rw [List.map_cons, if_pos hq]
      have hq' : (fun x : String × SeenRow => x.1 == c.item_url)
          (q.1, updateRow q.2 c) = true := hq
      rw [List.find?_cons_of_pos
        (p := fun x : String × SeenRow => x.1 == c.item_url) _ hq']
      rfl
    · unfold findRow at h
      rw [List.find?_cons_of_neg qs hq] at h
      unfold findRow
      rw [List.map_cons, if_neg hq]
      have hq' : ¬ (fun x : String × SeenRow => x.1 == c.item_url) q = true := hq
      rw [List.find?_cons_of_neg
        (p := fun x : String × SeenRow => x.1 == c.item_url) _ hq']
      exact ih r h

theorem rowCount_map_update (c : MarkCall) (u : String) :
    ∀ db : SeenTable,
      rowCount (db.map (fun p =>
          if p.1 == c.item_url then (p.1, updateRow p.2 c) else p)) u =
        rowCount db u := by
  intro db
  induction db with
  | nil => rfl
  | cons q qs ih =>
    unfold rowCount at ih ⊢
    rw [List.map_cons, List.countP_cons, List.countP_cons, ih]
    by_cases hq : (q.1 == c.item_url) = true
    · rw [if_pos hq]
    · rw [if_neg hq]

theorem mark_deal_seen_update (db : SeenTable) (c : MarkCall) (r : SeenRow)
    (h : findRow db c.item_url = some r) :
    findRow (mark_deal_seen db c) c.item_url = some (updateRow r c) ∧
    ∀ u, rowCount (mark_deal_seen db c) u = rowCount db u := by
  have hany : db.any (fun p => p.1 == c.item_url) = true := by
    rw [List.any_eq_true]
    obtain ⟨q, hq⟩ := Option.map_eq_some'.mp h
    exact ⟨q,
      List.mem_of_find?_eq_some
        (p := fun x : String × SeenRow => x.1 == c.item_url) hq.1,
      List.find?_some
        (p := fun x : String × SeenRow => x.1 == c.item_url) hq.1⟩
  unfold mark_deal_seen
  rw [if_pos hany]
  exact ⟨findRow_map_update c db r h, fun u => rowCount_map_update c u db⟩

theorem foldl_mark_deal_seen_found (u : String) :
    ∀ (calls : List MarkCall) (db : SeenTable) (r : SeenRow),
      (∀ c ∈ calls, c.item_url = u) → findRow db u = some r →
      findRow (calls.foldl mark_deal_seen db) u = some (applyUpdates r calls) ∧
      ∀ v, rowCount (calls.foldl mark_deal_seen db) v = rowCount db v := by
  intro calls
  induction calls with
  | nil =>
    intro db r _ h
    exact ⟨by simpa [applyUpdates] using h, fun _ => rfl⟩
  | cons c cs ih =>
    intro db r hall h
    have hc : c.item_url = u := hall c (by simp)
    have hstep := mark_deal_seen_update db c r (by rw [hc]; exact h)
    have hrest := ih (mark_deal_seen db c) (updateRow r c)
      (fun d hd => hall d (by simp [hd]))
      (by rw [← hc]; exact hstep.1)
    refine ⟨?_, ?_⟩
    · rw [List.foldl_cons]
      exact hrest.1
    · intro v
      rw [List.foldl_cons, hrest.2 v, hstep.2 v]

theorem applyUpdates_source (r : SeenRow) :
    ∀ cs : List MarkCall, (applyUpdates r cs).source = r.source := by
  intro cs
  induction cs generalizing r with
  | nil => rfl
  | cons c cs ih => exact (ih (updateRow r c)).trans rfl

theorem applyUpdates_title (r : SeenRow) :
    ∀ cs : List MarkCall, (applyUpdates r cs).title = r.title := by
  intro cs
  induction cs generalizing r with
  | nil => rfl
  | cons c cs ih => exact (ih (updateRow r c)).trans rfl

theorem applyUpdates_first_seen (r : SeenRow) :
    ∀ cs : List MarkCall, (applyUpdates r cs).first_seen = r.first_seen := by
  intro cs
  induction cs generalizing r with
  | nil => rfl
  | cons c cs ih => exact (ih (updateRow r c)).trans rfl

theorem applyUpdates_last_seen (r : SeenRow) :
    ∀ cs : List MarkCall, (applyUpdates r cs).last_seen =
      (cs.map (fun c => c.now)).getLastD r.last_seen := by
  intro cs
  induction cs generalizing r with
  | nil => rfl
  | cons c cs ih =>
    rw [applyUpdates, List.foldl_cons, List.map_cons, List.getLastD_cons]
    exact ih (updateRow r c)

theorem applyUpdates_notified (r : SeenRow) :
    ∀ cs : List MarkCall, (applyUpdates r cs).notified =
      (r.notified || cs.any (fun c => c.notified)) := by
  intro cs
  induction cs generalizing r with
  | nil => simp [applyUpdates]
  | cons c cs ih =>
    rw [applyUpdates, List.foldl_cons]
    have h1 := ih (updateRow r c)
    rw [applyUpdates] at h1
    rw [h1, List.any_cons]
    have h2 : (updateRow r c).notified = (c.notified || r.notified) := by
      unfold updateRow
      cases c.notified <;> simp
    rw [h2]
    cases c.notified <;> cases r.notified <;> simp

theorem applyUpdates_price (r : SeenRow) :
    ∀ cs : List MarkCall, (applyUpdates r cs).price =
      lastGiven r.price (cs.map (fun c => c.price)) := by
  intro cs
  induction cs generalizing r with
  | nil => rfl
  | cons c cs ih =>
    rw [applyUpdates, List.foldl_cons, List.map_cons, lastGiven, List.foldl_cons]
    exact ih (updateRow r c)

theorem applyUpdates_profit (r : SeenRow) :
    ∀ cs : List MarkCall, (applyUpdates r cs).profit =
      lastGiven r.profit (cs.map (fun c => c.profit)) := by
  intro cs
  induction cs generalizing r with
  | nil => rfl
  | cons c cs ih =>
    rw [applyUpdates, List.foldl_cons, List.map_cons, lastGiven, List.foldl_cons]
    exact ih (updateRow r c)

theorem applyUpdates_margin (r : SeenRow) :
    ∀ cs : List MarkCall, (applyUpdates r cs).margin =
      lastGiven r.margin (cs.map (fun c => c.margin)) := by
  intro cs
  induction cs generalizing r with
  | nil => rfl
  | cons c cs ih =>
    rw [applyUpdates, List.foldl_cons, List.map_cons, lastGiven, List.foldl_cons]
    exact ih (updateRow r c)

theorem SeenRow_eq_of_fields (x y : SeenRow) (h1 : x.source = y.source)
    (h2 : x.title = y.title) (h3 : x.price = y.price) (h4 : x.profit = y.profit)
    (h5 : x.margin = y.margin) (h6 : x.first_seen = y.first_seen)
    (h7 : x.last_seen = y.last_seen) (h8 : x.notified = y.notified) : x = y := by
  cases x
  cases y
  simp_all

/-- C5 (amended): starting from any table with no row for the url, a
nonempty sequence `c :: cs` of `mark_deal_seen` calls on that url leaves
exactly one row; afterwards `notified` is the OR of every call's flag (a
later `notified=False` call can never reset it), `first_seen` is the
first call's timestamp, `last_seen` the last call's, and each numeric
field (`price`, `profit`, `margin`) holds the *last non-null* value any
call supplied — a later call passing `None` keeps the prior stored value
(`COALESCE(excluded.x, x)`), rather than making the row reflect the
latest call verbatim. -/
theorem C5_mark_deal_seen (db : SeenTable) (c : MarkCall) (cs : List MarkCall)
    (hdb : findRow db c.item_url = none)
    (hcs : ∀ d ∈ cs, d.item_url = c.item_url) :
    findRow ((c :: cs).foldl mark_deal_seen db) c.item_url =
      some { source := c.source
             title := c.title
             price := lastGiven c.price (cs.map (fun d => d.price))
             profit := lastGiven c.profit (cs.map (fun d => d.profit))
             margin := lastGiven c.margin (cs.map (fun d => d.margin))
             first_seen := c.now
             last_seen := (cs.map (fun d => d.now)).getLastD c.now
             notified := (c.notified || cs.any (fun d => d.notified)) } ∧
    rowCount ((c :: cs).foldl mark_deal_seen db) c.item_url = 1 := by
  have h1 : mark_deal_seen db c = db ++ [(c.item_url, insertRow c)] :=
    mark_deal_seen_insert db c hdb
  have hfind1 : findRow (mark_deal_seen db c) c.item_url = some (insertRow c) := by
    rw [h1]
    exact findRow_append_insert db c.item_url (insertRow c) hdb
  have hcount1 : rowCount (mark_deal_seen db c) c.item_url = 1 := by
    rw [h1]
    have hz := rowCount_eq_zero_of_findRow_none db c.item_url hdb
    unfold rowCount at hz ⊢
    rw [List.countP_append, hz]
    simp
  obtain ⟨hf, hcnt⟩ := foldl_mark_deal_seen_found c.item_url cs
    (mark_deal_seen db c) (insertRow c) hcs hfind1
  constructor
  · rw [List.foldl_cons, hf]
    congr 1
    exact SeenRow_eq_of_fields _ _
      (applyUpdates_source (insertRow c) cs)
      (applyUpdates_title (insertRow c) cs)
      (applyUpdates_price (insertRow c) cs)
      (applyUpdates_profit (insertRow c) cs)
      (applyUpdates_margin (insertRow c) cs)
      (applyUpdates_first_seen (insertRow c) cs)
      (applyUpdates_last_seen (insertRow c) cs)
      (applyUpdates_notified (insertRow c) cs)
  · rw [List.foldl_cons, hcnt c.item_url, hcount1]

/-- First sighting of a deal: numeric fields supplied, alert sent. -/
def c5first : MarkCall :=
  { source := "ebay", item_url := "https://www.ebay.com/itm/1",
    title := some "ThinkPad X1", price := some 150, profit := some 90,
    margin := some 45, notified := true, now := 0 }

/-- A later re-sighting recorded with the Python defaults: `title=None`,
`price=None`, `profit=None`, `margin=None`, `notified=False`. -/
def c5second : MarkCall :=
  { source := "ebay", item_url := "https://www.ebay.com/itm/1", now := 1 }

/-- C5 (counterexample): the claim as stated is false.  After the first
call stores price 150 and a second call on the same url passes
`price=None`, the row still holds 150 — `COALESCE(excluded.price, price)`
keeps the old value, so the numeric fields do not reflect the latest
call, whose price is `None`. -/
theorem C5_counterexample :
    (findRow (mark_deal_seen (mark_deal_seen [] c5first) c5second)
        "https://www.ebay.com/itm/1").map (fun r => r.price) =
      some (some 150) ∧
    c5second.price = none :=
  ⟨by decide, rfl⟩

/-- Witness for C5 with the empty table and the two concrete calls. -/
theorem C5_mark_deal_seen_witness :
    findRow ([c5first, c5second].foldl mark_deal_seen []) c5first.item_url =
      some { source := c5first.source
             title := c5first.title
             price := lastGiven c5first.price ([c5second].map (fun d => d.price))
             profit := lastGiven c5first.profit ([c5second].map (fun d => d.profit))
             margin := lastGiven c5first.margin ([c5second].map (fun d => d.margin))
             first_seen := c5first.now
             last_seen := ([c5second].map (fun d => d.now)).getLastD c5first.now
             notified := (c5first.notified || [c5second].any (fun d => d.notified)) } ∧
    rowCount ([c5first, c5second].foldl mark_deal_seen []) c5first.item_url = 1 :=
  C5_mark_deal_seen [] c5first [c5second] rfl
    (fun d hd => by
      rw [List.mem_singleton] at hd
      rw [hd]
      rfl)
